import Mathlib

/-!
Verification development for the word-guessing live-game server
(`server.js`).  The server's mutable globals are gathered into a
`GameState` structure; each handler (the chat handler, the poll closer,
and the admin HTTP endpoints) becomes a pure function from a state and
its inputs to a new state together with the events it broadcasts.

Strings are modelled as sequences of Unicode code points (the game's
texts live in the Basic Multilingual Plane, where JavaScript's UTF-16
code units coincide with code points).  The Unicode-dependent pieces of
`normalize` (NFD decomposition, the Mark / Letter / Number / whitespace
character classes, lower-casing) are modelled exactly on the code-point
ranges exercised by this development: ASCII, the Latin-1 letters, the
combining-diacritics block U+0300..U+036F, and Hangul (for which NFD
decomposition is algorithmic, per the Unicode standard).
-/

/-- JavaScript `a || b` on strings: the empty string is falsy. -/
def jsOr (a b : String) : String := if a = "" then b else a

/-- A whitespace character, as matched by the regex class `\s`
(restricted to the ASCII range used here). -/
def isSpaceJS (c : Char) : Bool :=
  c = ' ' || c = '\t' || c = '\n' || c = '\r' || c.toNat = 0x0B || c.toNat = 0x0C

/-- A combining mark (`\p{M}`), modelled on the combining-diacritics
block U+0300..U+036F. -/
def isMarkJS (c : Char) : Bool := 0x300 ≤ c.toNat && c.toNat ≤ 0x36F

/-- A letter (`\p{L}`), modelled on ASCII, the Latin-1 letters, the
Hangul Jamo block and the Hangul syllables block. -/
def isLetterJS (c : Char) : Bool :=
  (('a' ≤ c && c ≤ 'z') || ('A' ≤ c && c ≤ 'Z'))
  || (0xC0 ≤ c.toNat && c.toNat ≤ 0xFF && !(c.toNat = 0xD7) && !(c.toNat = 0xF7))
  || (0x1100 ≤ c.toNat && c.toNat ≤ 0x11FF)
  || (0xAC00 ≤ c.toNat && c.toNat ≤ 0xD7A3)

/-- A decimal digit (`\p{N}` restricted to ASCII digits). -/
def isDigitJS (c : Char) : Bool := '0' ≤ c && c ≤ '9'

/-- `String.prototype.toLowerCase`, on the ASCII and Latin-1 ranges. -/
def toLowerJS (c : Char) : Char :=
  if 'A' ≤ c && c ≤ 'Z' then Char.ofNat (c.toNat + 32)
  else if 0xC0 ≤ c.toNat && c.toNat ≤ 0xDE && !(c.toNat = 0xD7) then Char.ofNat (c.toNat + 32)
  else c

/-- Canonical (NFD) decomposition of a Hangul syllable, per the
algorithm of the Unicode standard (chapter 3.12). -/
def hangulNFD (n : Nat) : List Char :=
  let S := n - 0xAC00
  let L := Char.ofNat (0x1100 + S / 588)
  let V := Char.ofNat (0x1161 + (S % 588) / 28)
  let T := S % 28
  if T = 0 then [L, V] else [L, V, Char.ofNat (0x11A7 + T)]

/-- Per-character NFD decomposition (`String.prototype.normalize("NFD")`),
modelled on the code points used in this development: Hangul syllables
decompose algorithmically, a few precomposed Latin letters decompose to
base plus combining mark, everything else is NFD-inert. -/
def nfdChar (c : Char) : List Char :=
  let n := c.toNat
  if 0xAC00 ≤ n && n ≤ 0xD7A3 then hangulNFD n
  else if c = 'é' then ['e', Char.ofNat 0x301]
  else if c = 'É' then ['E', Char.ofNat 0x301]
  else [c]

/-- `String.prototype.trim` on a character list. -/
def trimChars (cs : List Char) : List Char :=
  ((cs.dropWhile isSpaceJS).reverse.dropWhile isSpaceJS).reverse

/-- The body of `normalize` from `server.js`: NFD-decompose, drop
combining marks, drop everything that is not a letter, digit or
whitespace, lower-case, trim. -/
def normChars (cs : List Char) : List Char :=
  let decomposed := cs.flatMap nfdChar
  let noMarks := decomposed.filter (fun c => !isMarkJS c)
  let kept := noMarks.filter (fun c => isLetterJS c || isDigitJS c || isSpaceJS c)
  trimChars (kept.map toLowerJS)

/-- `normalize(txt)` from `server.js` (the empty string maps to itself,
matching the `if (!txt) return ""` guard; named `normalizeJS` because
Mathlib already declares `normalize`). -/
def normalizeJS (s : String) : String := String.mk (normChars s.data)

/-- `String.prototype.trim` on strings. -/
def trimJS (s : String) : String := String.mk (trimChars s.data)

/-- Value of a leading decimal-digit run, `none` if there is none
(the `NaN` outcome of `parseInt`). -/
def leadingDigitsVal (cs : List Char) : Option Nat :=
  let ds := cs.takeWhile isDigitJS
  if ds.isEmpty then none
  else some (ds.foldl (fun n c => n * 10 + (c.toNat - 48)) 0)

/-- JavaScript `parseInt(p, 10)`: skip leading whitespace, optional
sign, then the value of the leading digit run; `none` models `NaN`. -/
def parseIntJS (cs : List Char) : Option Int :=
  let cs := cs.dropWhile isSpaceJS
  match cs with
  | '-' :: rest => (leadingDigitsVal rest).map (fun n => -(n : Int))
  | '+' :: rest => (leadingDigitsVal rest).map (fun n => (n : Int))
  | _ => (leadingDigitsVal cs).map (fun n => (n : Int))

/-- A separator character of the regex `[;,\s]+` used by
`/api/reveal-letters` to split the `positions` field. -/
def isSepJS (c : Char) : Bool := c = ';' || c = ',' || isSpaceJS c

mutual

/-- `String.prototype.split(/[;,\s]+/)`: accumulate the current token
until a separator run starts. -/
def splitAux : List Char → List Char → List (List Char)
  | [], acc => [acc.reverse]
  | c :: rest, acc =>
    if isSepJS c then acc.reverse :: splitSkip rest
    else splitAux rest (c :: acc)

/-- Skip the remainder of a separator run, then resume tokenising. -/
def splitSkip : List Char → List (List Char)
  | [] => [[]]
  | c :: rest => if isSepJS c then splitSkip rest else splitAux rest [c]

end

/-- Token list of `positions.split(/[;,\s]+/)`. -/
def splitTokens (cs : List Char) : List (List Char) := splitAux cs []

/-! ## Data model: the server's globals and the broadcast events -/

/-- One record of the `users` store. -/
structure UserRec where
  userId : String
  display_name : String
  wins_total : Nat
  tier : String
deriving DecidableEq, Repr

/-- The `winner` global (`null` is modelled by `Option`; the `at`
field is called `atTime` since `at` is reserved in Lean). -/
structure WinnerRec where
  userId : String
  uniqueId : String
  nickname : String
  atTime : Int
  guess : String
deriving DecidableEq, Repr

/-- The `pollState` global when a poll is active.  The `tallies` object
and the `voters` set are modelled as insertion-ordered lists. -/
structure PollState where
  question : String
  options : List String
  tallies : List (String × Nat)
  voters : List String
  endsAt : Int
deriving DecidableEq, Repr

/-- A leaderboard entry as produced by `computeLeaderboard`. -/
structure LBEntry where
  userId : String
  display_name : String
  wins_total : Nat
  tier : String
deriving DecidableEq, Repr

/-- The named events the server emits over the socket (the fan-out
layer). Only the payloads the claims inspect are carried. -/
inductive Emit where
  | pollUpdate (tallies : List (String × Nat)) : Emit
  | pollEnd (winningOption : String) (tallies : List (String × Nat)) : Emit
  | stateMode (mode : String) : Emit
  | mask (maskedWord : String) : Emit
  | chatEcho (userId uniqueId nickname text : String) (ts : Int)
      (isCorrect : Bool) (tier : String) : Emit
  | winnerEv (nickname uniqueId userId guess : String) (highlightMs : Int) : Emit
  | userUpdate (userId nickname : String) (wins_total : Nat) (tier : String)
      (tierChanged : Bool) : Emit
  | leaderboard (entries : List LBEntry) : Emit
deriving DecidableEq, Repr

/-- The mutable globals of `server.js` that make up the game state. -/
structure GameState where
  isRunning : Bool
  secretWordRaw : String
  secretWordNorm : String
  winner : Option WinnerRec
  lastWinAt : Int
  revealedPositions : List Bool
  roundDurationMs : Int
  roundStartedAt : Option Int
  gameMode : String
  pollState : Option PollState
  users : List UserRec
  userLastMsgAt : List (String × Int)
deriving DecidableEq, Repr

/-- The globals' initial values at server start-up (persistence
disabled, so `users` starts empty). -/
def initialState : GameState where
  isRunning := false
  secretWordRaw := ""
  secretWordNorm := ""
  winner := none
  lastWinAt := 0
  revealedPositions := []
  roundDurationMs := 20000
  roundStartedAt := none
  gameMode := "classic"
  pollState := none
  users := []
  userLastMsgAt := []

/-- An incoming chat event, with absent string fields modelled as `""`
(matching the `data?.field || fallback` reads). -/
structure ChatEvent where
  userId : String
  uniqueId : String
  nickname : String
  comment : String
deriving DecidableEq, Repr

/-- Outcome of an admin HTTP endpoint: resulting state, HTTP status,
error message of the JSON body if any, and the `timeLeftMs` field of
the JSON body if any. -/
structure ApiResult where
  state : GameState
  status : Nat
  error : Option String
  timeLeftMs : Option Int
deriving DecidableEq, Repr

/-! ## Small map helpers (JavaScript `Map` / plain-object semantics:
lookup by key, set updates an existing key in place else appends) -/

/-- `map.get(k) ?? d` for the rate-limit ledger. -/
def lookupD (m : List (String × Int)) (k : String) (d : Int) : Int :=
  match m.find? (fun p => p.1 == k) with
  | some p => p.2
  | none => d

/-- `map.set(k, v)` for the rate-limit ledger. -/
def setAssocInt : List (String × Int) → String → Int → List (String × Int)
  | [], k, v => [(k, v)]
  | (k', v') :: rest, k, v =>
    if k' == k then (k, v) :: rest else (k', v') :: setAssocInt rest k v

/-- `tallies[k] ?? 0` / `tallies[k] || 0`. -/
def lookupTallyN (t : List (String × Nat)) (k : String) : Nat :=
  match t.find? (fun p => p.1 == k) with
  | some p => p.2
  | none => 0

/-- `tallies[k] = v` (JavaScript object assignment). -/
def setTallyN : List (String × Nat) → String → Nat → List (String × Nat)
  | [], k, v => [(k, v)]
  | (k', v') :: rest, k, v =>
    if k' == k then (k, v) :: rest else (k', v') :: setTallyN rest k v

/-- `tallies[opt] = (tallies[opt] || 0) + 1`. -/
def bumpTally (t : List (String × Nat)) (k : String) : List (String × Nat) :=
  setTallyN t k (lookupTallyN t k + 1)

/-! ## User / tier store -/

/-- `computeTier(winsTotal)` from `server.js`. -/
def computeTier (winsTotal : Nat) : String :=
  if winsTotal ≥ 3 then "platinum"
  else if winsTotal ≥ 2 then "gold"
  else if winsTotal ≥ 1 then "red"
  else "none"

/-- `getUser(userId, nickname)`: fetch-or-create the record, updating
the display name when a different non-empty nickname is given.  Returns
the updated store together with the record (the JavaScript version
returns the stored object by reference). -/
def getUserS (users : List UserRec) (userId nickname : String) :
    List UserRec × UserRec :=
  match users.find? (fun u => u.userId == userId) with
  | none =>
    let u : UserRec := ⟨userId, jsOr nickname userId, 0, "none"⟩
    (users ++ [u], u)
  | some u =>
    let u' := if nickname != "" && u.display_name != nickname then
        { u with display_name := nickname } else u
    (users.map (fun x => if x.userId == userId then u' else x), u')

/-- Insert a leaderboard entry into a list kept sorted by `wins_total`
descending (model of the comparator `(a, b) => b.wins_total -
a.wins_total` passed to `Array.prototype.sort`). -/
def insertByWins (e : LBEntry) : List LBEntry → List LBEntry
  | [] => [e]
  | x :: xs => if e.wins_total ≤ x.wins_total then x :: insertByWins e xs
               else e :: x :: xs

/-- `arr.sort((a, b) => b.wins_total - a.wins_total)`, modelled as an
insertion sort with the comparator's order. -/
def sortByWinsDesc (l : List LBEntry) : List LBEntry := l.foldr insertByWins []

/-- `computeLeaderboard()`: map the store to entries, sort by wins
descending, keep only positive win counts, take the top ten. -/
def computeLeaderboard (users : List UserRec) : List LBEntry :=
  ((sortByWinsDesc (users.map (fun u =>
      ⟨u.userId, u.display_name, u.wins_total, u.tier⟩))).filter
    (fun x => 0 < x.wins_total)).take 10

/-! ## Reveal / mask engine -/

/-- `revealedPositions[i]` with JavaScript truthiness: a read past the
end of the array (`undefined`) is falsy. -/
def getOrFalse (l : List Bool) (i : Nat) : Bool := l.getD i false

/-- JavaScript array assignment `a[i] = true`: in bounds it overwrites;
past the end it grows the array to length `i + 1`, the skipped slots
becoming holes (`undefined`, falsy on every read in this program, hence
modelled as `false`). -/
def jsSetTrue : List Bool → Nat → List Bool
  | [], 0 => [true]
  | [], n + 1 => false :: jsSetTrue [] n
  | _ :: rest, 0 => true :: rest
  | b :: rest, n + 1 => b :: jsSetTrue rest n

/-- The loop of the rapid-mode position lock: for every index below the
shorter of the two normalized strings, a matching character marks that
index revealed. -/
def rapidReveal (rp : List Bool) (secretNorm guessNorm : List Char) : List Bool :=
  (List.range (min secretNorm.length guessNorm.length)).foldl
    (fun acc i =>
      if guessNorm.getD i ' ' == secretNorm.getD i ' ' then jsSetTrue acc i
      else acc)
    rp

/-- `getMaskedWord`'s per-character map, carrying the running index:
a revealed position shows the raw character, others show `_`. -/
def maskFrom (rp : List Bool) : Nat → List Char → List Char
  | _, [] => []
  | i, c :: rest => (if getOrFalse rp i then c else '_') :: maskFrom rp (i + 1) rest

/-- `getMaskedWord()` over explicit raw word and reveal array. -/
def maskedOf (raw : String) (rp : List Bool) : String :=
  if raw = "" then "" else String.mk (maskFrom rp 0 raw.data)

/-- `getMaskedWord()` on the game state. -/
def getMaskedWord (s : GameState) : String := maskedOf s.secretWordRaw s.revealedPositions

/-! ## Chat handler (rate limit, judging, poll vote, rapid lock, win) -/

/-- The nickname derived from an event: `data?.nickname || data?.uniqueId
|| "Unknown"`. -/
def derivedNickname (ev : ChatEvent) : String :=
  jsOr ev.nickname (jsOr ev.uniqueId "Unknown")

/-- The viewer identity derived from an event:
`String(data?.userId || uniqueId || nickname)`. -/
def derivedUserId (ev : ChatEvent) : String :=
  jsOr ev.userId (jsOr ev.uniqueId (derivedNickname ev))

/-- The winner-highlight window (`winnerHighlightMs = 60_000`). -/
def winnerHighlightMs : Int := 60000

/-- The judging rule of the chat handler: correct iff reading is on, a
secret is set, the winner highlight is not active, and the normalized
message equals the normalized secret. -/
def judgeB (s : GameState) (normalizedMsg : String) (now : Int) : Bool :=
  s.isRunning && !(s.secretWordNorm == "")
    && !(s.winner.isSome && decide (now - s.lastWinAt < winnerHighlightMs))
    && (normalizedMsg == s.secretWordNorm)

/-- The poll-vote side effect of the chat handler: a not-yet-voting
viewer whose trimmed normalized message is one of the option strings is
added to the voter set and bumps that option's tally. -/
def votePoll (poll : Option PollState) (userId normalizedMsg : String) :
    Option PollState × List Emit :=
  match poll with
  | none => (none, [])
  | some p =>
    let opt := trimJS normalizedMsg
    if !(p.voters.contains userId) && p.options.contains opt then
      let t' := bumpTally p.tallies opt
      (some { p with voters := p.voters ++ [userId], tallies := t' },
       [Emit.pollUpdate t'])
    else (some p, [])

/-- The rapid-mode position-lock side effect of the chat handler,
returning the new reveal array and the mask broadcast if it ran. -/
def rapidLock (gameMode : String) (isRunning : Bool) (secretNorm : String)
    (isCorrect : Bool) (raw : String) (rp : List Bool) (normalizedMsg : String) :
    List Bool × List Emit :=
  if gameMode == "rapid" && isRunning && !(secretNorm == "") && !isCorrect then
    let rp' := rapidReveal rp secretNorm.data normalizedMsg.data
    (rp', [Emit.mask (maskedOf raw rp')])
  else (rp, [])

/-- The `chat` handler of `server.js` (the body of
`ttConnection.on("chat", ...)`), run at wall-clock instant `now`:
rate-limit, normalize, judge, poll vote, rapid lock, user-record
update, chat echo, and the winner path on a correct guess.  Returns the
new state and the emitted events in order. -/
def handleChat (s : GameState) (ev : ChatEvent) (now : Int) : GameState × List Emit :=
  let nickname := derivedNickname ev
  let uniqueId := ev.uniqueId
  let userId := derivedUserId ev
  let text := ev.comment
  let last := lookupD s.userLastMsgAt userId 0
  if now - last < 700 then (s, [])
  else
    let s0 := { s with userLastMsgAt := setAssocInt s.userLastMsgAt userId now }
    let normalizedMsg := normalizeJS text
    let isCorrect := judgeB s0 normalizedMsg now
    let vp := votePoll s0.pollState userId normalizedMsg
    let s1 := { s0 with pollState := vp.1 }
    let rl := rapidLock s1.gameMode s1.isRunning s1.secretWordNorm isCorrect
        s1.secretWordRaw s1.revealedPositions normalizedMsg
    let s2 := { s1 with revealedPositions := rl.1 }
    let gu := getUserS s2.users userId nickname
    let s3 := { s2 with users := gu.1 }
    let u := gu.2
    let echo := Emit.chatEcho userId uniqueId nickname text now isCorrect u.tier
    if isCorrect then
      let s4 := { s3 with
        winner := some ⟨userId, uniqueId, nickname, now, text⟩,
        lastWinAt := now,
        revealedPositions := List.replicate s3.secretWordRaw.length true }
      let u' : UserRec := { u with
        wins_total := u.wins_total + 1, tier := computeTier (u.wins_total + 1) }
      let tierChanged := u'.tier != u.tier
      let s5 := { s4 with
        users := s4.users.map (fun x => if x.userId == userId then u' else x) }
      (s5, vp.2 ++ rl.2 ++
        [echo, Emit.mask (getMaskedWord s4),
         Emit.winnerEv nickname uniqueId userId text winnerHighlightMs,
         Emit.userUpdate userId nickname u'.wins_total u'.tier tierChanged,
         Emit.leaderboard (computeLeaderboard s5.users)])
    else
      (s3, vp.2 ++ rl.2 ++ [echo])

/-- The judged-correctness flags of the chat echoes in an emit list. -/
def chatFlags (es : List Emit) : List Bool :=
  es.filterMap (fun e => match e with
    | Emit.chatEcho _ _ _ _ _ c _ => some c
    | _ => none)

/-! ## Poll close -/

/-- One step of `endPoll`'s maximum-search loop: a strictly greater
tally replaces the running winner, a tie keeps it. -/
def tallyStep (tallies : List (String × Nat)) (acc : String × Int) (opt : String) :
    String × Int :=
  if acc.2 < (lookupTallyN tallies opt : Int) then (opt, (lookupTallyN tallies opt : Int))
  else acc

/-- `endPoll()`: resolve the winning option starting from the current
mode with `maxVotes = -1`, apply it as the new game mode, broadcast,
and clear the poll.  A no-op when no poll is active. -/
def endPoll (s : GameState) : GameState × List Emit :=
  match s.pollState with
  | none => (s, [])
  | some p =>
    let w := (p.options.foldl (tallyStep p.tallies) (s.gameMode, -1)).1
    ({ s with gameMode := w, pollState := none },
     [Emit.pollEnd w p.tallies, Emit.stateMode w])

/-! ## Admin HTTP endpoints.  Request-body fields arrive as `Option`s
(`none` models an absent field or a non-numeric value, i.e. the `NaN`
branches of the JavaScript `Number` / `typeof` checks). -/

/-- `POST /api/set-word`. -/
def apiSetWord (s : GameState) (word : Option String) (now : Int) : ApiResult :=
  match word with
  | none => ⟨s, 400, some "Missing 'word'", none⟩
  | some w =>
    if w = "" then ⟨s, 400, some "Missing 'word'", none⟩
    else
      let s' := { s with
        secretWordRaw := w
        secretWordNorm := normalizeJS w
        revealedPositions := List.replicate w.length false
        roundDurationMs := 20000
        roundStartedAt := some now
        isRunning := true
        winner := none
        lastWinAt := 0 }
      ⟨s', 200, none, none⟩

/-- `POST /api/reset-round`. -/
def apiResetRound (s : GameState) : ApiResult :=
  ⟨{ s with
      winner := none
      lastWinAt := 0
      isRunning := false
      secretWordRaw := ""
      secretWordNorm := ""
      revealedPositions := []
      roundDurationMs := 20000
      roundStartedAt := none },
   200, none, none⟩

/-- `POST /api/reveal-word`. -/
def apiRevealWord (s : GameState) : ApiResult :=
  if s.secretWordNorm = "" then ⟨s, 400, some "No secret word set", none⟩
  else
    ⟨{ s with revealedPositions := List.replicate s.secretWordRaw.length true },
     200, none, none⟩

/-- One token of the `/api/reveal-letters` loop: parse it; an integer
within `[1, revealedPositions.length]` reveals that (1-based) position,
anything else is ignored. -/
def applyToken (rp : List Bool) (tok : List Char) : List Bool :=
  match parseIntJS tok with
  | none => rp
  | some idx =>
    if 1 ≤ idx && idx ≤ (rp.length : Int) then jsSetTrue rp (idx - 1).toNat
    else rp

/-- `POST /api/reveal-letters` (the `positions` body field; `none` and
`""` both fall into the `missing or invalid` branch, `""` because it is
falsy). -/
def apiRevealLetters (s : GameState) (positions : Option String) : ApiResult :=
  if s.secretWordNorm = "" then ⟨s, 400, some "No secret word set", none⟩
  else
    match positions with
    | none => ⟨s, 400, some "Missing or invalid 'positions'", none⟩
    | some ps =>
      if ps = "" then ⟨s, 400, some "Missing or invalid 'positions'", none⟩
      else
        let rp' := (splitTokens ps.data).foldl applyToken s.revealedPositions
        ⟨{ s with revealedPositions := rp' }, 200, none, none⟩

/-- `POST /api/update-timer` (body fields `ms` and `seconds`). -/
def apiUpdateTimer (s : GameState) (ms seconds : Option Int) (now : Int) : ApiResult :=
  if s.secretWordNorm = "" || s.roundStartedAt = none then
    ⟨s, 400, some "No active round to update timer", none⟩
  else
    let ms := match ms, seconds with
      | none, some sec => some (sec * 1000)
      | m, _ => m
    match ms with
    | none => ⟨s, 400, some "Invalid 'ms' or 'seconds' provided", none⟩
    | some m =>
      if m < 0 then ⟨s, 400, some "Invalid 'ms' or 'seconds' provided", none⟩
      else
        let t := s.roundStartedAt.getD 0
        let elapsed := now - t
        let s' := { s with roundDurationMs := elapsed + m }
        ⟨s', 200, none, some (max 0 (s'.roundDurationMs - (now - t)))⟩

/-- `POST /api/boost/add-time` (`ms = Number(ms) || 0` maps an absent
field to `0`, which the `ms <= 0` check then rejects). -/
def apiAddTime (s : GameState) (ms : Option Int) (now : Int) : ApiResult :=
  if s.secretWordNorm = "" || s.roundStartedAt = none then
    ⟨s, 400, some "No active round", none⟩
  else
    let m := (ms.getD 0)
    if m ≤ 0 then ⟨s, 400, some "Invalid 'ms'", none⟩
    else
      let t := s.roundStartedAt.getD 0
      let s' := { s with roundDurationMs := s.roundDurationMs + m }
      ⟨s', 200, none, some (max 0 (s'.roundDurationMs - (now - t)))⟩

/-- `POST /api/poll/start`.  `options = none` models a body whose
`options` is not an array; `durationMs` is `Number(durationMs) || 20000`
so `0` and an absent field both fall back to the default. -/
def apiPollStart (s : GameState) (question : Option String)
    (options : Option (List String)) (durationMs : Option Int) (now : Int) :
    ApiResult :=
  match s.pollState with
  | some _ => ⟨s, 400, some "A poll is already running", none⟩
  | none =>
    match options with
    | none => ⟨s, 400, some "Poll must have at least two options", none⟩
    | some opts =>
      if opts.length < 2 then
        ⟨s, 400, some "Poll must have at least two options", none⟩
      else
        let durMs := match durationMs with
          | some d => if d = 0 then 20000 else d
          | none => 20000
        let p : PollState :=
          ⟨jsOr (question.getD "") "Choose a mode", opts,
           opts.map (fun o => (o, 0)), [], now + durMs⟩
        ⟨{ s with pollState := some p }, 200, none, none⟩

/-- `POST /api/boost/reveal-letter`: reveal one random unrevealed
position.  The draw `Math.floor(Math.random() * unrevealed.length)` is
modelled by the parameter `k`, reduced modulo the number of unrevealed
positions. -/
def apiBoostRevealLetter (s : GameState) (k : Nat) : ApiResult :=
  if s.secretWordNorm = "" then ⟨s, 400, some "No secret word set", none⟩
  else
    let unrevealed := (List.range s.revealedPositions.length).filter
      (fun i => !getOrFalse s.revealedPositions i)
    if unrevealed.length = 0 then
      ⟨s, 400, some "All letters are already revealed", none⟩
    else
      let idx := unrevealed.getD (k % unrevealed.length) 0
      ⟨{ s with revealedPositions := jsSetTrue s.revealedPositions idx },
       200, none, none⟩

/-- `POST /api/boost/reveal-word`. -/
def apiBoostRevealWord (s : GameState) : ApiResult :=
  if s.secretWordNorm = "" then ⟨s, 400, some "No secret word set", none⟩
  else
    ⟨{ s with revealedPositions := List.replicate s.secretWordRaw.length true },
     200, none, none⟩

/-- The `timeLeftMs` field of the `/api/state` snapshot (and of the
bootstrap handshake): computed from the round clock when both
`roundStartedAt` and `roundDurationMs` are truthy, `0` otherwise. -/
def snapshotTimeLeft (s : GameState) (now : Int) : Int :=
  match s.roundStartedAt with
  | none => 0
  | some t => if s.roundDurationMs = 0 then 0
              else max 0 (s.roundDurationMs - (now - t))

/-! ## Helper lemmas -/

theorem lookupD_setAssocInt_self (m : List (String × Int)) (k : String) (v d : Int) :
    lookupD (setAssocInt m k v) k d = v := by
  induction m with
  | nil => simp [setAssocInt, lookupD, List.find?]
  | cons p rest ih =>
    by_cases h : p.1 == k
    · simp [setAssocInt, h, lookupD, List.find?]
    · simpa [setAssocInt, h, lookupD, List.find?] using ih

theorem getOrFalse_jsSetTrue (l : List Bool) (i j : Nat) :
    getOrFalse (jsSetTrue l i) j = if j = i then true else getOrFalse l j := by
  induction l generalizing i j with
  | nil =>
    induction i generalizing j with
    | zero => cases j <;> simp [jsSetTrue, getOrFalse]
    | succ n ih =>
      cases j with
      | zero => simp [jsSetTrue, getOrFalse]
      | succ m => simpa [jsSetTrue, getOrFalse] using ih m
  | cons b rest ih =>
    cases i with
    | zero => cases j <;> simp [jsSetTrue, getOrFalse]
    | succ n =>
      cases j with
      | zero => simp [jsSetTrue, getOrFalse]
      | succ m => simpa [jsSetTrue, getOrFalse] using ih n m

theorem length_jsSetTrue (l : List Bool) (i : Nat) :
    (jsSetTrue l i).length = max l.length (i + 1) := by
  induction l generalizing i with
  | nil =>
    induction i with
    | zero => simp [jsSetTrue]
    | succ n ih => simp [jsSetTrue, ih]
  | cons b rest ih =>
    cases i with
    | zero => simp [jsSetTrue]
    | succ n => simp [jsSetTrue, ih]; omega

theorem getOrFalse_rapidReveal (rp : List Bool) (sn gn : List Char) (j : Nat) :
    getOrFalse (rapidReveal rp sn gn) j
      = (getOrFalse rp j ||
         (decide (j < min sn.length gn.length) && (gn.getD j ' ' == sn.getD j ' '))) := by
  unfold rapidReveal
  generalize min sn.length gn.length = n
  induction n generalizing rp with
  | zero => simp
  | succ m ih =>
    rw [List.range_succ, List.foldl_append]
    simp only [List.foldl_cons, List.foldl_nil]
    by_cases hj : j = m
    · subst hj
      by_cases h : (gn.getD j ' ' == sn.getD j ' ') = true
      · rw [if_pos h, getOrFalse_jsSetTrue, if_pos rfl, h]
        rw [decide_eq_true (Nat.lt_succ_self j), Bool.and_true, Bool.or_true]
      · have hf : (gn.getD j ' ' == sn.getD j ' ') = false := Bool.eq_false_iff.mpr h
        rw [if_neg h, ih, hf, Bool.and_false, Bool.and_false]
    · have hd : decide (j < m + 1) = decide (j < m) := decide_eq_decide.mpr (by omega)
      by_cases h : (gn.getD m ' ' == sn.getD m ' ') = true
      · rw [if_pos h, getOrFalse_jsSetTrue, if_neg hj, ih, hd]
      · rw [if_neg h, ih, hd]

theorem getOrFalse_rapidReveal_mono (rp : List Bool) (sn gn : List Char) (j : Nat)
    (h : getOrFalse rp j = true) : getOrFalse (rapidReveal rp sn gn) j = true := by
  rw [getOrFalse_rapidReveal, h, Bool.true_or]

theorem length_applyToken (rp : List Bool) (tok : List Char) :
    (applyToken rp tok).length = rp.length := by
  cases hp : parseIntJS tok with
  | none => simp [applyToken, hp]
  | some idx =>
    simp only [applyToken, hp]
    by_cases h : (1 ≤ idx && idx ≤ (rp.length : Int)) = true
    · rw [if_pos h, length_jsSetTrue]
      simp only [Bool.and_eq_true, decide_eq_true_eq] at h
      omega
    · rw [if_neg h]

theorem getOrFalse_applyToken (rp : List Bool) (tok : List Char) (i : Nat)
    (hi : i < rp.length) :
    getOrFalse (applyToken rp tok) i
      = (getOrFalse rp i || (parseIntJS tok == some ((i : Int) + 1))) := by
  cases hp : parseIntJS tok with
  | none => simp [applyToken, hp]
  | some idx =>
    simp only [applyToken, hp]
    by_cases hv : idx = (i : Int) + 1
    · subst hv
      have h : (1 ≤ (i : Int) + 1 && (i : Int) + 1 ≤ (rp.length : Int)) = true := by
        simp only [Bool.and_eq_true, decide_eq_true_eq]
        omega
      rw [if_pos h, getOrFalse_jsSetTrue, if_pos (by omega : i = ((i : Int) + 1 - 1).toNat)]
      simp
    · have hbeq : (some idx == some ((i : Int) + 1)) = false := by simp [hv]
      rw [hbeq, Bool.or_false]
      by_cases h : (1 ≤ idx && idx ≤ (rp.length : Int)) = true
      · have hne : ¬ i = (idx - 1).toNat := by
          simp only [Bool.and_eq_true, decide_eq_true_eq] at h
          omega
        rw [if_pos h, getOrFalse_jsSetTrue, if_neg hne]
      · rw [if_neg h]

theorem foldl_applyToken_length (toks : List (List Char)) (rp : List Bool) :
    (toks.foldl applyToken rp).length = rp.length := by
  induction toks generalizing rp with
  | nil => rfl
  | cons t ts ih => rw [List.foldl_cons, ih, length_applyToken]

theorem getOrFalse_foldl_applyToken (toks : List (List Char)) (rp : List Bool)
    (i : Nat) (hi : i < rp.length) :
    getOrFalse (toks.foldl applyToken rp) i
      = (getOrFalse rp i || toks.any (fun t => parseIntJS t == some ((i : Int) + 1))) := by
  induction toks generalizing rp with
  | nil => simp
  | cons t ts ih =>
    rw [List.foldl_cons, ih _ (by rw [length_applyToken]; exact hi),
      getOrFalse_applyToken _ _ _ hi, List.any_cons, Bool.or_assoc]

theorem length_maskFrom (rp : List Bool) (i : Nat) (cs : List Char) :
    (maskFrom rp i cs).length = cs.length := by
  induction cs generalizing i with
  | nil => rfl
  | cons c rest ih => simp [maskFrom, ih]

theorem getD_maskFrom (rp : List Bool) (cs : List Char) (i j : Nat)
    (hj : j < cs.length) :
    (maskFrom rp i cs).getD j '_'
      = (if getOrFalse rp (i + j) then cs.getD j '_' else '_') := by
  induction cs generalizing i j with
  | nil => simp at hj
  | cons c rest ih =>
    cases j with
    | zero => simp [maskFrom]
    | succ m =>
      have hm : m < rest.length := by simpa using hj
      have := ih (i + 1) m hm
      simpa [maskFrom, Nat.add_assoc, Nat.add_comm 1 m] using this

theorem lookupTallyN_cons (p : String × Nat) (rest : List (String × Nat)) (k : String) :
    lookupTallyN (p :: rest) k = if p.1 == k then p.2 else lookupTallyN rest k := by
  cases hq : (p.1 == k)
  · unfold lookupTallyN
    rw [List.find?_cons_of_neg _ (by simp [hq])]
    simp
  · unfold lookupTallyN
    rw [List.find?_cons_of_pos _ (by simp [hq])]
    simp

theorem lookupTallyN_setTallyN_self (t : List (String × Nat)) (k : String) (v : Nat) :
    lookupTallyN (setTallyN t k v) k = v := by
  induction t with
  | nil => simp [setTallyN, lookupTallyN_cons]
  | cons p rest ih =>
    by_cases h : (p.1 == k) = true
    · simp [setTallyN, h, lookupTallyN_cons]
    · simp only [setTallyN, h, Bool.false_eq_true, if_false]
      rw [lookupTallyN_cons, if_neg (by simpa using h), ih]

theorem lookupTallyN_setTallyN_other (t : List (String × Nat)) (k k' : String)
    (v : Nat) (hne : k' ≠ k) :
    lookupTallyN (setTallyN t k v) k' = lookupTallyN t k' := by
  have hkk : ((k, v).1 == k') = false := beq_eq_false_iff_ne.mpr (fun h => hne h.symm)
  induction t with
  | nil => simp [setTallyN, lookupTallyN_cons, hkk, lookupTallyN]
  | cons p rest ih =>
    by_cases h : (p.1 == k) = true
    · have hpk : p.1 = k := beq_iff_eq.mp h
      have hpk' : (p.1 == k') = false := by
        rw [hpk]; exact beq_eq_false_iff_ne.mpr (fun hx => hne hx.symm)
      simp [setTallyN, h, lookupTallyN_cons, hkk, hpk']
    · simp only [setTallyN, h, Bool.false_eq_true, if_false]
      cases hq : (p.1 == k') <;> simp [lookupTallyN_cons, hq, ih]

theorem lookupTallyN_bumpTally_self (t : List (String × Nat)) (k : String) :
    lookupTallyN (bumpTally t k) k = lookupTallyN t k + 1 :=
  lookupTallyN_setTallyN_self t k _

theorem lookupTallyN_bumpTally_other (t : List (String × Nat)) (k k' : String)
    (hne : k' ≠ k) : lookupTallyN (bumpTally t k) k' = lookupTallyN t k' :=
  lookupTallyN_setTallyN_other t k k' _ hne

theorem dropWhile_dropWhile (p : Char → Bool) (l : List Char) :
    (l.dropWhile p).dropWhile p = l.dropWhile p := by
  induction l with
  | nil => rfl
  | cons a l ih =>
    by_cases h : p a = true
    · simp [List.dropWhile_cons, h, ih]
    · simp [List.dropWhile_cons, h]

theorem length_dropWhile_le (p : Char → Bool) (l : List Char) :
    (l.dropWhile p).length ≤ l.length := by
  conv_rhs => rw [← List.takeWhile_append_dropWhile (p := p) (l := l)]
  rw [List.length_append]
  omega

theorem dropWhile_head_false (p : Char → Bool) (c : Char) (r : List Char)
    (h : (c :: r).dropWhile p = c :: r) : p c = false := by
  by_cases hc : p c = true
  · rw [List.dropWhile_cons, if_pos hc] at h
    have hle := length_dropWhile_le p r
    have hlen := congrArg List.length h
    simp only [List.length_cons] at hlen
    omega
  · exact Bool.eq_false_iff.mpr hc

theorem dropWhile_append_self (p : Char → Bool) (t w : List Char)
    (h : (t ++ w).dropWhile p = t ++ w) : t.dropWhile p = t := by
  cases t with
  | nil => rfl
  | cons c t' =>
    have hc : p c = false := dropWhile_head_false p c (t' ++ w) (by simpa using h)
    rw [List.dropWhile_cons, if_neg (by simp [hc])]

theorem trimChars_idem (cs : List Char) : trimChars (trimChars cs) = trimChars cs := by
  unfold trimChars
  generalize hg : cs.dropWhile isSpaceJS = A
  have hA : A.dropWhile isSpaceJS = A := by
    rw [← hg]; exact dropWhile_dropWhile _ _
  have hsplit := List.takeWhile_append_dropWhile (p := isSpaceJS) (l := A.reverse)
  have hAeq := congrArg List.reverse hsplit
  rw [List.reverse_append, List.reverse_reverse] at hAeq
  have ht : (A.reverse.dropWhile isSpaceJS).reverse.dropWhile isSpaceJS
      = (A.reverse.dropWhile isSpaceJS).reverse :=
    dropWhile_append_self _ _ _ (by rw [hAeq]; exact hA)
  rw [ht, List.reverse_reverse, dropWhile_dropWhile]

theorem trimJS_normalizeJS (x : String) : trimJS (normalizeJS x) = normalizeJS x := by
  unfold trimJS normalizeJS normChars
  rw [trimChars_idem]

theorem mem_insertByWins {e x : LBEntry} {l : List LBEntry}
    (h : x ∈ insertByWins e l) : x = e ∨ x ∈ l := by
  induction l with
  | nil => simpa [insertByWins] using h
  | cons y ys ih =>
    unfold insertByWins at h
    by_cases hc : e.wins_total ≤ y.wins_total
    · rw [if_pos hc] at h
      rcases List.mem_cons.mp h with h | h
      · exact Or.inr (List.mem_cons.mpr (Or.inl h))
      · rcases ih h with h | h
        · exact Or.inl h
        · exact Or.inr (List.mem_cons.mpr (Or.inr h))
    · rw [if_neg hc] at h
      rcases List.mem_cons.mp h with h | h
      · exact Or.inl h
      · exact Or.inr h

theorem pairwise_insertByWins (e : LBEntry) (l : List LBEntry)
    (h : l.Pairwise (fun a b => b.wins_total ≤ a.wins_total)) :
    (insertByWins e l).Pairwise (fun a b => b.wins_total ≤ a.wins_total) := by
  induction l with
  | nil => simp [insertByWins]
  | cons y ys ih =>
    rw [List.pairwise_cons] at h
    unfold insertByWins
    by_cases hc : e.wins_total ≤ y.wins_total
    · rw [if_pos hc, List.pairwise_cons]
      refine ⟨fun b hb => ?_, ih h.2⟩
      rcases mem_insertByWins hb with hb | hb
      · subst hb; exact hc
      · exact h.1 b hb
    · rw [if_neg hc, List.pairwise_cons]
      refine ⟨fun b hb => ?_, List.pairwise_cons.mpr h⟩
      rcases List.mem_cons.mp hb with hb | hb
      · subst hb; omega
      · have := h.1 b hb; omega

theorem pairwise_sortByWinsDesc (l : List LBEntry) :
    (sortByWinsDesc l).Pairwise (fun a b => b.wins_total ≤ a.wins_total) := by
  unfold sortByWinsDesc
  induction l with
  | nil => simp
  | cons x xs ih => exact pairwise_insertByWins x _ ih

theorem foldl_tallyStep_keep (t : List (String × Nat)) (l : List String)
    (acc : String × Int) (h : ∀ o ∈ l, (lookupTallyN t o : Int) ≤ acc.2) :
    l.foldl (tallyStep t) acc = acc := by
  induction l with
  | nil => rfl
  | cons o rest ih =>
    rw [List.foldl_cons]
    have hno : ¬ (acc.2 < (lookupTallyN t o : Int)) := by
      have := h o (List.mem_cons_self o rest)
      omega
    rw [show tallyStep t acc o = acc from by unfold tallyStep; rw [if_neg hno]]
    exact ih (fun x hx => h x (List.mem_cons.mpr (Or.inr hx)))

theorem foldl_tallyStep_snd_lt (t : List (String × Nat)) (l : List String)
    (acc : String × Int) (k : Int) (hacc : acc.2 < k)
    (h : ∀ o ∈ l, (lookupTallyN t o : Int) < k) :
    (l.foldl (tallyStep t) acc).2 < k := by
  induction l generalizing acc with
  | nil => exact hacc
  | cons o rest ih =>
    rw [List.foldl_cons]
    refine ih (tallyStep t acc o) ?_ (fun x hx => h x (List.mem_cons.mpr (Or.inr hx)))
    unfold tallyStep
    by_cases hlt : acc.2 < (lookupTallyN t o : Int)
    · rw [if_pos hlt]
      exact h o (List.mem_cons_self o rest)
    · rw [if_neg hlt]
      exact hacc

theorem foldl_tallyStep_firstmax (t : List (String × Nat)) (l1 l2 : List String)
    (o : String) (acc : String × Int)
    (hacc : acc.2 < (lookupTallyN t o : Int))
    (h1 : ∀ x ∈ l1, (lookupTallyN t x : Int) < (lookupTallyN t o : Int))
    (h2 : ∀ x ∈ l2, (lookupTallyN t x : Int) ≤ (lookupTallyN t o : Int)) :
    (l1 ++ o :: l2).foldl (tallyStep t) acc = (o, (lookupTallyN t o : Int)) := by
  rw [List.foldl_append, List.foldl_cons]
  have hmid : (l1.foldl (tallyStep t) acc).2 < (lookupTallyN t o : Int) :=
    foldl_tallyStep_snd_lt t l1 acc _ hacc h1
  have hstep : ∀ a : String × Int, a.2 < (lookupTallyN t o : Int) →
      tallyStep t a o = (o, (lookupTallyN t o : Int)) := by
    intro a ha
    unfold tallyStep
    rw [if_pos ha]
  rw [hstep _ hmid]
  exact foldl_tallyStep_keep t l2 _ (fun x hx => h2 x hx)

theorem chatFlags_append (a b : List Emit) :
    chatFlags (a ++ b) = chatFlags a ++ chatFlags b := by
  unfold chatFlags
  exact List.filterMap_append _ _ _

theorem chatFlags_votePoll (p : Option PollState) (u m : String) :
    chatFlags (votePoll p u m).2 = [] := by
  cases p with
  | none => rfl
  | some q =>
    simp only [votePoll]
    split
    · rfl
    · rfl

theorem chatFlags_rapidLock (gm : String) (ir : Bool) (sn : String) (ic : Bool)
    (raw : String) (rp : List Bool) (m : String) :
    chatFlags (rapidLock gm ir sn ic raw rp m).2 = [] := by
  unfold rapidLock
  split
  · rfl
  · rfl

theorem judgeB_userLastMsgAt (s : GameState) (v : List (String × Int))
    (m : String) (now : Int) :
    judgeB { s with userLastMsgAt := v } m now = judgeB s m now := rfl

theorem handleChat_dropped (s : GameState) (ev : ChatEvent) (now : Int)
    (h : now - lookupD s.userLastMsgAt (derivedUserId ev) 0 < 700) :
    handleChat s ev now = (s, []) := by
  unfold handleChat
  rw [if_pos h]

theorem handleChat_accepted (s : GameState) (ev : ChatEvent) (now : Int)
    (h : ¬ (now - lookupD s.userLastMsgAt (derivedUserId ev) 0 < 700)) :
    chatFlags (handleChat s ev now).2 = [judgeB s (normalizeJS ev.comment) now]
    ∧ (handleChat s ev now).1.userLastMsgAt
        = setAssocInt s.userLastMsgAt (derivedUserId ev) now
    ∧ (handleChat s ev now).1.pollState
        = (votePoll s.pollState (derivedUserId ev) (normalizeJS ev.comment)).1 := by
  simp only [handleChat]
  rw [if_neg h]
  refine ⟨?_, ?_, ?_⟩
  · split
    · rw [chatFlags_append, chatFlags_append, chatFlags_votePoll, chatFlags_rapidLock]
      simp [chatFlags, judgeB_userLastMsgAt]
    · rw [chatFlags_append, chatFlags_append, chatFlags_votePoll, chatFlags_rapidLock]
      simp [chatFlags, judgeB_userLastMsgAt]
  · split
    · rfl
    · rfl
  · split
    · rfl
    · rfl

theorem handleChat_not_correct_revealed (s : GameState) (ev : ChatEvent) (now : Int)
    (h : ¬ (now - lookupD s.userLastMsgAt (derivedUserId ev) 0 < 700))
    (hjf : judgeB s (normalizeJS ev.comment) now = false) :
    (handleChat s ev now).1.revealedPositions
      = (rapidLock s.gameMode s.isRunning s.secretWordNorm false s.secretWordRaw
          s.revealedPositions (normalizeJS ev.comment)).1 := by
  simp only [handleChat]
  rw [if_neg h]
  rw [judgeB_userLastMsgAt] at hjf ⊢
  rw [hjf]
  rfl

theorem rapidLock_on (gm : String) (ir : Bool) (sn : String) (raw : String)
    (rp : List Bool) (m : String)
    (hgm : gm = "rapid") (hir : ir = true) (hsn : sn ≠ "") :
    rapidLock gm ir sn false raw rp m = (rapidReveal rp sn.data m.data,
      [Emit.mask (maskedOf raw (rapidReveal rp sn.data m.data))]) := by
  subst hgm hir
  unfold rapidLock
  rw [if_pos]
  simp [hsn]

theorem judgeB_eq_true_iff (s : GameState) (msg : String) (now : Int) :
    judgeB s msg now = true ↔
      (s.isRunning = true ∧ s.secretWordNorm ≠ "" ∧
       ¬(s.winner.isSome = true ∧ now - s.lastWinAt < winnerHighlightMs) ∧
       msg = s.secretWordNorm) := by
  unfold judgeB
  simp only [Bool.and_eq_true, Bool.not_eq_true', Bool.and_eq_false_iff,
    beq_eq_false_iff_ne, beq_iff_eq, decide_eq_true_eq, decide_eq_false_iff_not,
    Bool.eq_false_iff, ne_eq]
  tauto

theorem contains_iff_mem {l : List String} {a : String} : l.contains a = true ↔ a ∈ l := by
  rw [List.contains_iff_exists_mem_beq]
  constructor
  · rintro ⟨b, hb, hba⟩
    rwa [beq_iff_eq.mp hba]
  · intro h
    exact ⟨a, h, beq_iff_eq.mpr rfl⟩

theorem getOrFalse_replicate_false (n i : Nat) :
    getOrFalse (List.replicate n false) i = false := by
  unfold getOrFalse
  induction n generalizing i with
  | zero => simp
  | succ m ih =>
    cases i with
    | zero => simp [List.replicate]
    | succ j => simp only [List.replicate, List.getD_cons_succ]; exact ih j

/-! ## The claims -/

/-- A running classic-mode round with secret `cat` (as left by
`/api/set-word` with word `cat` at instant 0). -/
def catState : GameState :=
  { initialState with
      isRunning := true
      secretWordRaw := "cat"
      secretWordNorm := "cat"
      revealedPositions := [false, false, false]
      roundStartedAt := some 0 }

/-- The same round in rapid mode. -/
def rapidCatState : GameState := { catState with gameMode := "rapid" }

/-- Claim C4: for every chat event that passes the rate limiter, the judged
flag attached to the chat echo is true iff reading is enabled, a secret is
set, the winner highlight is not active (a winner is recorded and
`now - lastWinAt < 60000` makes it active), and the normalized message
equals the normalized secret; in particular a textually correct guess
arriving during the highlight window is judged incorrect. -/
theorem chat_judge_spec (s : GameState) (ev : ChatEvent) (now : Int)
    (hrate : 700 ≤ now - lookupD s.userLastMsgAt (derivedUserId ev) 0) :
    winnerHighlightMs = 60000
    ∧ chatFlags (handleChat s ev now).2 = [judgeB s (normalizeJS ev.comment) now]
    ∧ (judgeB s (normalizeJS ev.comment) now = true ↔
        (s.isRunning = true ∧ s.secretWordNorm ≠ "" ∧
         ¬(s.winner.isSome = true ∧ now - s.lastWinAt < winnerHighlightMs) ∧
         normalizeJS ev.comment = s.secretWordNorm))
    ∧ (s.winner.isSome = true ∧ now - s.lastWinAt < winnerHighlightMs →
        judgeB s (normalizeJS ev.comment) now = false) := by
  refine ⟨rfl, (handleChat_accepted s ev now (by omega)).1,
    judgeB_eq_true_iff s _ now, ?_⟩
  intro hh
  by_contra hb
  rw [Bool.not_eq_false] at hb
  exact ((judgeB_eq_true_iff s _ now).mp hb).2.2.1 hh

/-- Witness for C4 at a concrete accepted event: with secret `cat` and no
active highlight, the message `Cat!` normalizes to `cat` and is judged
correct. -/
theorem chat_judge_spec_witness :
    (700 ≤ (1000 : Int) -
      lookupD catState.userLastMsgAt (derivedUserId ⟨"u1", "u1", "Alice", "Cat!"⟩) 0)
    ∧ chatFlags (handleChat catState ⟨"u1", "u1", "Alice", "Cat!"⟩ 1000).2 = [true] := by
  have h := chat_judge_spec catState ⟨"u1", "u1", "Alice", "Cat!"⟩ 1000 (by decide)
  refine ⟨by decide, ?_⟩
  rw [h.2.1]
  decide

/-- Claim C5: for every accepted chat event in rapid mode with reading on,
a secret set and an incorrect guess, position `j` below the shorter of the
two normalized lengths ends up revealed exactly when it was already
revealed or the normalized guess and secret agree at `j`; positions at or
beyond that length are unchanged, and no revealed position becomes
hidden. -/
theorem rapid_lock_spec (s : GameState) (ev : ChatEvent) (now : Int)
    (hrate : 700 ≤ now - lookupD s.userLastMsgAt (derivedUserId ev) 0)
    (hmode : s.gameMode = "rapid") (hrun : s.isRunning = true)
    (hsec : s.secretWordNorm ≠ "")
    (hnc : judgeB s (normalizeJS ev.comment) now = false) :
    (∀ j : Nat,
       getOrFalse (handleChat s ev now).1.revealedPositions j
         = (getOrFalse s.revealedPositions j ||
            (decide (j < min s.secretWordNorm.data.length (normalizeJS ev.comment).data.length)
              && ((normalizeJS ev.comment).data.getD j ' ' == s.secretWordNorm.data.getD j ' '))))
    ∧ (∀ j : Nat, getOrFalse s.revealedPositions j = true →
        getOrFalse (handleChat s ev now).1.revealedPositions j = true) := by
  have hrev := handleChat_not_correct_revealed s ev now (by omega) hnc
  rw [rapidLock_on s.gameMode s.isRunning s.secretWordNorm s.secretWordRaw
      s.revealedPositions (normalizeJS ev.comment) hmode hrun hsec] at hrev
  constructor
  · intro j
    rw [hrev]
    exact getOrFalse_rapidReveal _ _ _ _
  · intro j hj
    rw [hrev]
    exact getOrFalse_rapidReveal_mono _ _ _ _ hj

/-- Witness for C5, the spec's own example: secret `cat`, guess `cot` in
rapid mode reveals positions 0 and 2 but not 1. -/
theorem rapid_lock_spec_witness :
    (700 ≤ (1000 : Int) -
      lookupD rapidCatState.userLastMsgAt (derivedUserId ⟨"u1", "u1", "Bob", "cot"⟩) 0)
    ∧ rapidCatState.gameMode = "rapid"
    ∧ rapidCatState.isRunning = true
    ∧ rapidCatState.secretWordNorm ≠ ""
    ∧ judgeB rapidCatState (normalizeJS "cot") 1000 = false
    ∧ getOrFalse (handleChat rapidCatState ⟨"u1", "u1", "Bob", "cot"⟩ 1000).1.revealedPositions 0 = true
    ∧ getOrFalse (handleChat rapidCatState ⟨"u1", "u1", "Bob", "cot"⟩ 1000).1.revealedPositions 1 = false
    ∧ getOrFalse (handleChat rapidCatState ⟨"u1", "u1", "Bob", "cot"⟩ 1000).1.revealedPositions 2 = true := by
  have h := rapid_lock_spec rapidCatState ⟨"u1", "u1", "Bob", "cot"⟩ 1000
    (by decide) (by decide) (by decide) (by decide) (by decide)
  refine ⟨by decide, by decide, by decide, by decide, by decide, ?_, ?_, ?_⟩
  · rw [h.1 0]; decide
  · rw [h.1 1]; decide
  · rw [h.1 2]; decide

/-- Claim C6: an event arriving less than 700 ms after the viewer's last
accepted event is dropped whole (state unchanged, nothing emitted, the
last-accepted timestamp not updated); an event 700 ms or more after it is
processed (its chat echo is emitted); hence after an accepted event at
`t1`, a second event from the same derived viewer identity at `t2` with
`t2 - t1 < 700` has no effect at all, while one with `700 ≤ t2 - t1` is
processed. -/
theorem rate_limit_spec (s : GameState) (ev1 ev2 : ChatEvent) (t1 t2 : Int)
    (hsame : derivedUserId ev1 = derivedUserId ev2)
    (hacc : 700 ≤ t1 - lookupD s.userLastMsgAt (derivedUserId ev1) 0) :
    (∀ s' : GameState, ∀ ev' : ChatEvent, ∀ t' : Int,
        t' - lookupD s'.userLastMsgAt (derivedUserId ev') 0 < 700 →
        handleChat s' ev' t' = (s', []))
    ∧ (t2 - t1 < 700 →
        handleChat (handleChat s ev1 t1).1 ev2 t2 = ((handleChat s ev1 t1).1, []))
    ∧ (700 ≤ t2 - t1 →
        chatFlags (handleChat (handleChat s ev1 t1).1 ev2 t2).2
          = [judgeB (handleChat s ev1 t1).1 (normalizeJS ev2.comment) t2]) := by
  have hlast : lookupD (handleChat s ev1 t1).1.userLastMsgAt (derivedUserId ev2) 0 = t1 := by
    rw [← hsame, (handleChat_accepted s ev1 t1 (by omega)).2.1, lookupD_setAssocInt_self]
  refine ⟨fun s' ev' t' h => handleChat_dropped s' ev' t' h, ?_, ?_⟩
  · intro h
    exact handleChat_dropped _ _ _ (by rw [hlast]; omega)
  · intro h
    exact (handleChat_accepted _ ev2 t2 (by rw [hlast]; omega)).1

/-- Witness for C6: two events from viewer `u1` 500 ms apart, the first
accepted; the second is dropped with no state change and no emits. -/
theorem rate_limit_spec_witness :
    derivedUserId ⟨"u1", "u1", "Alice", "hello"⟩ = derivedUserId ⟨"u1", "u1", "Alice", "again"⟩
    ∧ (700 ≤ (1000 : Int) -
        lookupD initialState.userLastMsgAt (derivedUserId ⟨"u1", "u1", "Alice", "hello"⟩) 0)
    ∧ handleChat (handleChat initialState ⟨"u1", "u1", "Alice", "hello"⟩ 1000).1
        ⟨"u1", "u1", "Alice", "again"⟩ 1500
      = ((handleChat initialState ⟨"u1", "u1", "Alice", "hello"⟩ 1000).1, []) := by
  have h := rate_limit_spec initialState ⟨"u1", "u1", "Alice", "hello"⟩
    ⟨"u1", "u1", "Alice", "again"⟩ 1000 1500 (by decide) (by decide)
  exact ⟨by decide, by decide, h.2.1 (by decide)⟩

/-- An active poll whose options carry an uppercase letter, with no votes. -/
def c2Poll : PollState :=
  ⟨"Choose a mode", ["Classic", "Rapid"], [("Classic", 0), ("Rapid", 0)], [], 99999⟩

/-- A state with that poll active. -/
def c2State : GameState := { initialState with pollState := some c2Poll }

/-- Counterexample to claim C2 as stated: the viewer has not voted and the
normalized message `RAPID!` equals the normalized form of the option
`Rapid`, yet the vote is not counted — the chat handler compares the
normalized message against the raw option strings, which are never
normalized. -/
theorem poll_vote_counterexample :
    (700 ≤ (1000 : Int) -
      lookupD c2State.userLastMsgAt (derivedUserId ⟨"u1", "u1", "Alice", "RAPID!"⟩) 0)
    ∧ c2Poll.voters = []
    ∧ normalizeJS "RAPID!" = normalizeJS "Rapid"
    ∧ (handleChat c2State ⟨"u1", "u1", "Alice", "RAPID!"⟩ 1000).1.pollState = some c2Poll := by
  decide

/-- Claim C2 amended: for an accepted chat event while a poll is active,
the vote is counted (viewer appended to the voter set, exactly that
option's tally incremented by 1, all other tallies unchanged) iff the
viewer has not yet voted and the normalized message equals one of the
option strings verbatim; otherwise the poll is unchanged. -/
theorem poll_vote_amended (s : GameState) (ev : ChatEvent) (now : Int) (p : PollState)
    (hrate : 700 ≤ now - lookupD s.userLastMsgAt (derivedUserId ev) 0)
    (hp : s.pollState = some p) :
    ((derivedUserId ev ∉ p.voters ∧ normalizeJS ev.comment ∈ p.options) →
      (handleChat s ev now).1.pollState
        = some { p with voters := p.voters ++ [derivedUserId ev],
                        tallies := bumpTally p.tallies (normalizeJS ev.comment) }
      ∧ lookupTallyN (bumpTally p.tallies (normalizeJS ev.comment)) (normalizeJS ev.comment)
          = lookupTallyN p.tallies (normalizeJS ev.comment) + 1
      ∧ (∀ o, o ≠ normalizeJS ev.comment →
          lookupTallyN (bumpTally p.tallies (normalizeJS ev.comment)) o
            = lookupTallyN p.tallies o))
    ∧ (¬(derivedUserId ev ∉ p.voters ∧ normalizeJS ev.comment ∈ p.options) →
      (handleChat s ev now).1.pollState = some p) := by
  have hps := (handleChat_accepted s ev now (by omega)).2.2
  rw [hp] at hps
  simp only [votePoll] at hps
  rw [trimJS_normalizeJS] at hps
  constructor
  · rintro ⟨hnv, hin⟩
    have h1 : p.voters.contains (derivedUserId ev) = false := by
      rw [Bool.eq_false_iff]
      intro hcc
      exact hnv (contains_iff_mem.mp hcc)
    have h2 : p.options.contains (normalizeJS ev.comment) = true := contains_iff_mem.mpr hin
    rw [if_pos (by rw [h1, h2]; rfl)] at hps
    exact ⟨hps, lookupTallyN_bumpTally_self _ _,
      fun o ho => lookupTallyN_bumpTally_other _ _ _ ho⟩
  · intro hn
    have hcf : ¬ ((!p.voters.contains (derivedUserId ev)
        && p.options.contains (normalizeJS ev.comment)) = true) := by
      intro hc
      rw [Bool.and_eq_true, Bool.not_eq_true'] at hc
      apply hn
      refine ⟨fun hm => ?_, contains_iff_mem.mp hc.2⟩
      have hmm := contains_iff_mem.mpr hm
      rw [hmm] at hc
      exact absurd hc.1 (by decide)
    rw [if_neg hcf] at hps
    exact hps

/-- Witness for the amended C2: with options `classic`/`rapid` (already in
normalized form), the message `rapid` from a fresh viewer is counted and
bumps exactly that tally. -/
theorem poll_vote_amended_witness :
    (700 ≤ (1000 : Int) -
      lookupD { initialState with
          pollState := some ⟨"q", ["classic", "rapid"],
            [("classic", 0), ("rapid", 0)], [], 99999⟩ }.userLastMsgAt
        (derivedUserId ⟨"u1", "u1", "Alice", "rapid"⟩) 0)
    ∧ (handleChat { initialState with
          pollState := some ⟨"q", ["classic", "rapid"],
            [("classic", 0), ("rapid", 0)], [], 99999⟩ }
        ⟨"u1", "u1", "Alice", "rapid"⟩ 1000).1.pollState
      = some ⟨"q", ["classic", "rapid"], [("classic", 0), ("rapid", 1)], ["u1"], 99999⟩ := by
  have h := poll_vote_amended { initialState with
      pollState := some ⟨"q", ["classic", "rapid"],
        [("classic", 0), ("rapid", 0)], [], 99999⟩ }
    ⟨"u1", "u1", "Alice", "rapid"⟩ 1000
    ⟨"q", ["classic", "rapid"], [("classic", 0), ("rapid", 0)], [], 99999⟩
    (by decide) rfl
  refine ⟨by decide, ?_⟩
  rw [(h.1 (by decide)).1]
  decide

/-- A finished poll with both options tied at 3 votes. -/
def c1Poll : PollState :=
  ⟨"Choose a mode", ["classic", "rapid"], [("classic", 3), ("rapid", 3)],
   ["a", "b", "c", "d", "e", "f"], 99999⟩

/-- A state in rapid mode with that tied poll active. -/
def c1State : GameState := { initialState with gameMode := "rapid", pollState := some c1Poll }

/-- Counterexample to claim C1 as stated: with mode `rapid` active and a
3-3 tie between `classic` and `rapid`, closing the poll switches the mode
to `classic` — the tie does not keep the previously active mode. -/
theorem poll_close_counterexample :
    lookupTallyN c1Poll.tallies "classic" = lookupTallyN c1Poll.tallies "rapid"
    ∧ c1State.gameMode = "rapid"
    ∧ (endPoll c1State).1.gameMode = "classic"
    ∧ (endPoll c1State).1.gameMode ≠ c1State.gameMode := by
  decide

/-- Claim C1 amended: closing an active poll sets the mode to the first
option in list order whose tally is strictly greater than every earlier
option's tally and at least every later option's tally (the first
maximum).  The mode therefore changes whenever that first-listed maximal
option differs from the current mode — on a tie the previously active
mode is kept only if it happens to be that first maximal option. -/
theorem poll_close_amended (s : GameState) (p : PollState) (l1 l2 : List String)
    (o : String) (hp : s.pollState = some p) (hopts : p.options = l1 ++ o :: l2)
    (h1 : ∀ x ∈ l1, (lookupTallyN p.tallies x : Int) < (lookupTallyN p.tallies o : Int))
    (h2 : ∀ x ∈ l2, (lookupTallyN p.tallies x : Int) ≤ (lookupTallyN p.tallies o : Int)) :
    (endPoll s).1.gameMode = o ∧ (endPoll s).1.pollState = none := by
  simp only [endPoll, hp]
  rw [hopts, foldl_tallyStep_firstmax p.tallies l1 l2 o (s.gameMode, -1) (by omega) h1 h2]
  exact ⟨rfl, trivial⟩

/-- Witness for the amended C1 at the tied poll above: `classic` is the
first option attaining the maximal tally, so the mode becomes `classic`
even though `rapid` was active. -/
theorem poll_close_amended_witness :
    c1State.pollState = some c1Poll
    ∧ c1Poll.options = [] ++ "classic" :: ["rapid"]
    ∧ (∀ x ∈ ([] : List String),
        (lookupTallyN c1Poll.tallies x : Int) < (lookupTallyN c1Poll.tallies "classic" : Int))
    ∧ (∀ x ∈ ["rapid"],
        (lookupTallyN c1Poll.tallies x : Int) ≤ (lookupTallyN c1Poll.tallies "classic" : Int))
    ∧ (endPoll c1State).1.gameMode = "classic" := by
  have h := poll_close_amended c1State c1Poll [] ["rapid"] "classic" rfl (by decide)
    (by decide) (by decide)
  exact ⟨rfl, by decide, by decide, by decide, h.1⟩

/-- The Hangul syllable U+AC00, whose NFD form is the two jamo
U+1100 U+1161 — a one-character word whose normalized form has length 2. -/
def hangulWord : String := String.mk [Char.ofNat 0xAC00]

/-- The round produced by `/api/set-word` with that word followed by
`/api/mode` to `rapid`. -/
def hangulState : GameState :=
  { (apiSetWord initialState (some hangulWord) 0).state with gameMode := "rapid" }

/-- A guess consisting of the syllable twice (normalizes to four jamo,
so it is not the secret, but its first two jamo match the secret's). -/
def hangulGuess : ChatEvent :=
  ⟨"u1", "u1", "Bob", String.mk [Char.ofNat 0xAC00, Char.ofNat 0xAC00]⟩

/-- Claim C3, evaluated at the failing input: after `/api/set-word` the
invariant `revealedPositions.length = secretWordRaw.length` holds (1 = 1),
but one rapid-mode position lock on an incorrect guess grows the reveal
array to the normalized length 2, breaking the invariant — the loop
indexes by normalized positions into an array sized by the raw length,
and a JavaScript array assignment past the end extends the array. -/
theorem reveal_length_invariant_code_bug :
    hangulState.revealedPositions.length = hangulState.secretWordRaw.length
    ∧ hangulState.secretWordRaw.length = 1
    ∧ hangulState.secretWordNorm.length = 2
    ∧ (700 ≤ (1000 : Int) -
        lookupD hangulState.userLastMsgAt (derivedUserId hangulGuess) 0)
    ∧ normalizeJS hangulGuess.comment ≠ hangulState.secretWordNorm
    ∧ (handleChat hangulState hangulGuess 1000).1.secretWordRaw.length = 1
    ∧ (handleChat hangulState hangulGuess 1000).1.revealedPositions.length = 2 := by
  decide

theorem apiAddTime_active (s : GameState) (t0 delta now : Int)
    (hsec : s.secretWordNorm ≠ "") (hst : s.roundStartedAt = some t0)
    (hd : 0 < delta) :
    apiAddTime s (some delta) now =
      ⟨{ s with roundDurationMs := s.roundDurationMs + delta }, 200, none,
       some (max 0 (s.roundDurationMs + delta - (now - t0)))⟩ := by
  simp only [apiAddTime, hst]
  rw [if_neg (by simp [hsec])]
  simp only [Option.getD_some]
  rw [if_neg (by omega)]

theorem apiUpdateTimer_active (s : GameState) (t0 m now : Int)
    (hsec : s.secretWordNorm ≠ "") (hst : s.roundStartedAt = some t0)
    (hm : 0 ≤ m) :
    apiUpdateTimer s (some m) none now =
      ⟨{ s with roundDurationMs := (now - t0) + m }, 200, none, some m⟩ := by
  simp only [apiUpdateTimer, hst]
  rw [if_neg (by simp [hsec])]
  rw [if_neg (by omega : ¬ m < 0)]
  have h1 : now - t0 + m - (now - t0) = m := by omega
  simp only [Option.getD_some, h1]
  rw [max_eq_right hm]

/-- Counterexample to claim C7 as stated: with an overdue round (total
20000 ms, elapsed 30000 ms) the remaining time is clamped to 0, and
extending by 10000 ms leaves the remaining time at 0 rather than growing
it by exactly 10000. -/
theorem timer_algebra_counterexample :
    snapshotTimeLeft catState 30000 = 0
    ∧ (apiAddTime catState (some 10000) 30000).status = 200
    ∧ (apiAddTime catState (some 10000) 30000).state.roundDurationMs = 30000
    ∧ (apiAddTime catState (some 10000) 30000).timeLeftMs = some 0
    ∧ ¬ ((0 : Int) + 10000 = 0) := by
  decide

/-- Claim C7 amended: with an active round (secret set, `startedAt = t0`,
nonzero total duration `D`), the snapshot's remaining time is
`max 0 (D - (now - t0))`; extending by `delta > 0` makes the total
`D + delta` and the returned remaining `max 0 (D + delta - (now - t0))`,
which exceeds the old remaining by exactly `delta` whenever the round is
not yet overdue (`now - t0 ≤ D`); setting an absolute remaining
`m ≥ 0` makes the total `(now - t0) + m` and returns remaining exactly
`m`. -/
theorem timer_algebra_amended (s : GameState) (t0 now delta m : Int)
    (hsec : s.secretWordNorm ≠ "") (hst : s.roundStartedAt = some t0)
    (hdur : s.roundDurationMs ≠ 0) (hdelta : 0 < delta) (hm : 0 ≤ m) :
    snapshotTimeLeft s now = max 0 (s.roundDurationMs - (now - t0))
    ∧ (apiAddTime s (some delta) now).state.roundDurationMs = s.roundDurationMs + delta
    ∧ (apiAddTime s (some delta) now).timeLeftMs
        = some (max 0 (s.roundDurationMs + delta - (now - t0)))
    ∧ (now - t0 ≤ s.roundDurationMs →
        max 0 (s.roundDurationMs + delta - (now - t0))
          = max 0 (s.roundDurationMs - (now - t0)) + delta)
    ∧ (apiUpdateTimer s (some m) none now).state.roundDurationMs = (now - t0) + m
    ∧ (apiUpdateTimer s (some m) none now).timeLeftMs = some m := by
  refine ⟨?_, ?_, ?_, ?_, ?_, ?_⟩
  · simp only [snapshotTimeLeft, hst]
    rw [if_neg hdur]
  · rw [apiAddTime_active s t0 delta now hsec hst hdelta]
  · rw [apiAddTime_active s t0 delta now hsec hst hdelta]
  · intro h
    rw [max_def, max_def]
    split_ifs <;> omega
  · rw [apiUpdateTimer_active s t0 m now hsec hst hm]
  · rw [apiUpdateTimer_active s t0 m now hsec hst hm]

/-- Witness for the amended C7, the spec's own numbers: a 20000 ms round,
`extend(10000)` at elapsed 5000 leaves 25000 ms; `setRemaining(30000)` at
elapsed 5000 leaves 30000 ms. -/
theorem timer_algebra_amended_witness :
    catState.secretWordNorm ≠ ""
    ∧ catState.roundStartedAt = some 0
    ∧ catState.roundDurationMs = 20000
    ∧ (apiAddTime catState (some 10000) 5000).timeLeftMs = some 25000
    ∧ (apiUpdateTimer catState (some 30000) none 5000).timeLeftMs = some 30000 := by
  have h := timer_algebra_amended catState 0 5000 10000 30000
    (by decide) rfl (by decide) (by decide) (by decide)
  refine ⟨by decide, rfl, by decide, ?_, ?_⟩
  · rw [h.2.2.1]
    decide
  · exact h.2.2.2.2.2

/-- Claim C9: the three InvalidState admin requests — adjusting the timer
with no active round, starting a poll while one is active, revealing
letters with no secret set — return a non-2xx status carrying an error
message and leave the whole game state unchanged. -/
theorem invalid_state_spec (s : GameState) :
    (∀ ms seconds : Option Int, ∀ now : Int,
       s.secretWordNorm = "" ∨ s.roundStartedAt = none →
       (apiUpdateTimer s ms seconds now).state = s
       ∧ ¬(200 ≤ (apiUpdateTimer s ms seconds now).status
            ∧ (apiUpdateTimer s ms seconds now).status ≤ 299)
       ∧ (apiUpdateTimer s ms seconds now).error.isSome = true)
    ∧ (∀ q : Option String, ∀ opts : Option (List String), ∀ dur : Option Int,
       ∀ now : Int, ∀ p : PollState, s.pollState = some p →
       (apiPollStart s q opts dur now).state = s
       ∧ ¬(200 ≤ (apiPollStart s q opts dur now).status
            ∧ (apiPollStart s q opts dur now).status ≤ 299)
       ∧ (apiPollStart s q opts dur now).error.isSome = true)
    ∧ (∀ ps : Option String, s.secretWordNorm = "" →
       (apiRevealLetters s ps).state = s
       ∧ ¬(200 ≤ (apiRevealLetters s ps).status ∧ (apiRevealLetters s ps).status ≤ 299)
       ∧ (apiRevealLetters s ps).error.isSome = true) := by
  refine ⟨?_, ?_, ?_⟩
  · intro ms seconds now h
    have hres : apiUpdateTimer s ms seconds now
        = ⟨s, 400, some "No active round to update timer", none⟩ := by
      unfold apiUpdateTimer
      rw [if_pos (by rcases h with h | h <;> simp [h])]
    rw [hres]
    exact ⟨rfl, by dsimp only; omega, rfl⟩
  · intro q opts dur now p hp
    have hres : apiPollStart s q opts dur now
        = ⟨s, 400, some "A poll is already running", none⟩ := by
      simp only [apiPollStart, hp]
    rw [hres]
    exact ⟨rfl, by dsimp only; omega, rfl⟩
  · intro ps h
    have hres : apiRevealLetters s ps = ⟨s, 400, some "No secret word set", none⟩ := by
      unfold apiRevealLetters
      rw [if_pos h]
    rw [hres]
    exact ⟨rfl, by dsimp only; omega, rfl⟩

/-- Witness for C9 at the initial state with a poll active: no secret, no
round clock, and an active poll, so all three requests are rejected with
status 400 and no state change. -/
theorem invalid_state_spec_witness :
    (c2State.secretWordNorm = "" ∨ c2State.roundStartedAt = none)
    ∧ c2State.pollState = some c2Poll
    ∧ c2State.secretWordNorm = ""
    ∧ (apiUpdateTimer c2State (some 5000) none 1000).state = c2State
    ∧ (apiPollStart c2State (some "q") (some ["a", "b"]) (some 10000) 1000).state = c2State
    ∧ (apiRevealLetters c2State (some "1;2")).state = c2State
    ∧ (apiUpdateTimer c2State (some 5000) none 1000).status = 400 := by
  have h := invalid_state_spec c2State
  refine ⟨Or.inl (by decide), rfl, by decide,
    (h.1 (some 5000) none 1000 (Or.inl (by decide))).1,
    (h.2.1 (some "q") (some ["a", "b"]) (some 10000) 1000 c2Poll rfl).1,
    (h.2.2 (some "1;2") (by decide)).1, by decide⟩

theorem apiRevealLetters_ok (s : GameState) (ps : String)
    (hsec : ¬ s.secretWordNorm = "") (hps : ¬ ps = "") :
    apiRevealLetters s (some ps)
      = ⟨{ s with revealedPositions :=
            (splitTokens ps.data).foldl applyToken s.revealedPositions },
         200, none, none⟩ := by
  simp only [apiRevealLetters]
  rw [if_neg hsec, if_neg hps]

/-- Claim C8: starting from a freshly set secret (all positions hidden),
`/api/reveal-letters` reveals exactly the 1-based positions named by
tokens that `parseInt` to an in-range index — out-of-range and
non-numeric tokens are individually ignored — and the rendered mask then
shows the raw character at every revealed position and `_` at every
unrevealed one, in original order. -/
theorem reveal_positions_spec (s : GameState) (w ps : String)
    (hraw : s.secretWordRaw = w) (hsec : s.secretWordNorm ≠ "") (hps : ps ≠ "")
    (hrp : s.revealedPositions = List.replicate w.length false) :
    (apiRevealLetters s (some ps)).status = 200
    ∧ (∀ i, i < w.length →
        getOrFalse (apiRevealLetters s (some ps)).state.revealedPositions i
          = (splitTokens ps.data).any (fun t => parseIntJS t == some ((i : Int) + 1)))
    ∧ (getMaskedWord (apiRevealLetters s (some ps)).state).data.length = w.data.length
    ∧ (∀ i, i < w.length →
        (getMaskedWord (apiRevealLetters s (some ps)).state).data.getD i '_'
          = (if (splitTokens ps.data).any (fun t => parseIntJS t == some ((i : Int) + 1))
             then w.data.getD i '_' else '_')) := by
  rw [apiRevealLetters_ok s ps hsec hps]
  have hlen : ∀ i, i < w.length →
      i < (List.replicate w.length false).length := by
    intro i hi
    simpa using hi
  have hget : ∀ i, i < w.length →
      getOrFalse ((splitTokens ps.data).foldl applyToken s.revealedPositions) i
        = (splitTokens ps.data).any (fun t => parseIntJS t == some ((i : Int) + 1)) := by
    intro i hi
    rw [hrp, getOrFalse_foldl_applyToken _ _ _ (hlen i hi), getOrFalse_replicate_false,
      Bool.false_or]
  refine ⟨rfl, fun i hi => hget i hi, ?_, ?_⟩
  · dsimp only [getMaskedWord, maskedOf]
    rw [hraw]
    by_cases hw : w = ""
    · subst hw
      simp
    · rw [if_neg hw]
      exact length_maskFrom _ _ _
  · intro i hi
    have hw : ¬ w = "" := by
      intro h
      subst h
      simp [String.length] at hi
    have hid : i < w.data.length := hi
    dsimp only [getMaskedWord, maskedOf]
    rw [hraw, if_neg hw]
    rw [show (String.mk (maskFrom ((splitTokens ps.data).foldl applyToken
        s.revealedPositions) 0 w.data)).data
      = maskFrom ((splitTokens ps.data).foldl applyToken s.revealedPositions) 0 w.data
      from rfl]
    rw [getD_maskFrom _ _ 0 i hid]
    simp only [Nat.zero_add]
    rw [hget i hi]

/-- Witness for C8: secret `Word`, positions string `1;3;9;x` — tokens 1
and 3 are applied, 9 is out of range and `x` is not numeric, and the
mask renders as `W_r_`. -/
theorem reveal_positions_spec_witness :
    (apiSetWord initialState (some "Word") 0).state.secretWordRaw = "Word"
    ∧ (apiSetWord initialState (some "Word") 0).state.secretWordNorm ≠ ""
    ∧ ("1;3;9;x" : String) ≠ ""
    ∧ (apiSetWord initialState (some "Word") 0).state.revealedPositions
        = List.replicate ("Word" : String).length false
    ∧ getMaskedWord (apiRevealLetters (apiSetWord initialState (some "Word") 0).state
        (some "1;3;9;x")).state = "W_r_" := by
  have h := reveal_positions_spec (apiSetWord initialState (some "Word") 0).state
    "Word" "1;3;9;x" rfl (by decide) (by decide) (by decide)
  refine ⟨rfl, by decide, by decide, by decide, ?_⟩
  have hlen := h.2.2.1
  have hchar := h.2.2.2
  decide

/-- Claim C10: every leaderboard computed from the user store contains
only users with strictly positive win totals, has at most ten entries,
and is sorted by `wins_total` in descending order (the snapshot and the
leaderboard broadcast both call this one function). -/
theorem leaderboard_spec (users : List UserRec) :
    (∀ e ∈ computeLeaderboard users, 0 < e.wins_total)
    ∧ (computeLeaderboard users).length ≤ 10
    ∧ (computeLeaderboard users).Pairwise (fun a b => b.wins_total ≤ a.wins_total) := by
  refine ⟨?_, ?_, ?_⟩
  · intro e he
    unfold computeLeaderboard at he
    have hf := List.mem_of_mem_take he
    have := (List.mem_filter.mp hf).2
    simpa using this
  · unfold computeLeaderboard
    rw [List.length_take]
    exact Nat.min_le_left _ _
  · unfold computeLeaderboard
    exact List.Pairwise.sublist
      (List.Sublist.trans (List.take_sublist _ _) (List.filter_sublist _))
      (pairwise_sortByWinsDesc _)
